import Mathlib

/-!
Verification of the audio framing pipeline and connection/session lifecycle of
the Real_Time_Speech_Translator repository, as a shallow embedding in Lean.

Audio samples arrive as IEEE-754 binary32 values (Web Audio `Float32Array`);
every such value, every product with the powers-of-two-scaled constants 32768
and 32767 used below, and every comparison against the thresholds 1 and 1/100
is exact in the rational numbers, so samples are embedded as `ℚ`.  Machine
16-bit integers are embedded as `ℤ` with the ECMAScript `ToInt16` conversion
(truncation toward zero, then reduction modulo 2^16 into [-32768, 32767])
written out explicitly.  Event-handler bodies (WebSocket callbacks, teardown)
are embedded as the finite lists of observable actions they perform, in
program order.
-/

/-! ## Sample Converter (src/unnamed/part_000 lines 504-520, AudioCapture.processAudioFrames;
the same conversion appears in src/frontend/public/audio-processor.js lines 24-28) -/

/-- Frame size constant `FRAME_SIZE = 2048` (src/unnamed/part_000 line 42). -/
def FRAME_SIZE : ℕ := 2048

/-- Silence threshold `0.01` (src/unnamed/part_000 line 515).  The binary64
literal `0.01` and the rational 1/100 order the realizable binary32 sample
values identically (no binary32 value lies between them), so the threshold is
embedded as 1/100. -/
def SILENCE_THRESHOLD : ℚ := 1/100

/-- `Math.max(-1, Math.min(1, frameSamples[i]))` (src/unnamed/part_000 line 511). -/
def clampSample (s : ℚ) : ℚ := max (-1) (min 1 s)

/-- `Math.abs` on an (exact, finite) sample value. -/
def jsAbs (q : ℚ) : ℚ := if q < 0 then -q else q

/-- ECMAScript ToIntegerOrInfinity on a finite value: truncation toward zero
(floor of the absolute value, with the sign restored). -/
def ratTrunc (q : ℚ) : ℤ := if q < 0 then ⌈q⌉ else ⌊q⌋

/-- The modulo-2^16 signed reinterpretation that ECMAScript ToInt16 applies
after truncation (storing into an `Int16Array`). -/
def toInt16Wrap (n : ℤ) : ℤ := (n + 32768) % 65536 - 32768

/-- `pcmData[i] = sample < 0 ? sample * 0x8000 : sample * 0x7FFF` stored into an
`Int16Array` (src/unnamed/part_000 lines 511-512): clamp, scale, then ToInt16. -/
def sampleToInt16 (s : ℚ) : ℤ :=
  toInt16Wrap (if clampSample s < 0 then ratTrunc (clampSample s * 32768)
    else ratTrunc (clampSample s * 32767))

/-- The Sample Converter as the specification's words state it: clamp, then
scale negatives by 32768 "with truncation toward the minimum representable
value" (that is, rounding toward -32768: floor) and non-negatives by 32767. -/
def sampleToInt16SpecFloor (s : ℚ) : ℤ :=
  if clampSample s < 0 then ⌊clampSample s * 32768⌋ else ⌊clampSample s * 32767⌋

/-- The Sample Converter with the truncation direction amended to match the
code: truncation toward zero (ECMAScript ToInt16), no wrap (the clamped,
scaled value is always in range). -/
def sampleToInt16SpecTrunc (s : ℚ) : ℤ :=
  if clampSample s < 0 then ratTrunc (clampSample s * 32768)
  else ratTrunc (clampSample s * 32767)

/-- `Math.abs(sample) > 0.01` over a candidate frame: the `hasAudio` flag of
src/unnamed/part_000 lines 506, 514-517 (`sample` there is already clamped). -/
def hasAudio (frame : List ℚ) : Bool :=
  frame.any fun s => decide (SILENCE_THRESHOLD < jsAbs (clampSample s))

/-! ## Frame Accumulator (src/unnamed/part_000 lines 478-548, processAudioFrames) -/

/-- The inner `while (accumulatedSamples.length >= FRAME_SIZE)` loop of
src/unnamed/part_000 lines 500-538: repeatedly splice off the first
`FRAME_SIZE` samples as a candidate frame; what remains is the residual.
Returns (candidate frames in extraction order, residual). -/
def extractFrames (acc : List ℚ) : List (List ℚ) × List ℚ :=
  if _h : FRAME_SIZE ≤ acc.length then
    let r := extractFrames (acc.drop FRAME_SIZE)
    (acc.take FRAME_SIZE :: r.1, r.2)
  else ([], acc)
termination_by acc.length
decreasing_by
  simp only [List.length_drop]
  have hF : 0 < FRAME_SIZE := by norm_num [FRAME_SIZE]
  omega

/-- One run of `processAudioFrames` (src/unnamed/part_000 lines 478-548) on the
chunk buffer `frameBufferRef.current`, modelled on the processing path (a
WebSocket object is present, as guaranteed by the `onaudioprocess` producer at
lines 368-383): if the buffer is empty nothing happens; otherwise, when the
total sample count reaches `FRAME_SIZE`, all chunks are concatenated, complete
frames are spliced off, and a non-empty residual is pushed back as a single
chunk.  Returns (candidate frames produced, new buffer contents). -/
def processAudioFrames (buffer : List (List ℚ)) : List (List ℚ) × List (List ℚ) :=
  if buffer.isEmpty then ([], buffer)
  else if FRAME_SIZE ≤ (buffer.map List.length).sum then
    ((extractFrames buffer.flatten).1,
     if (extractFrames buffer.flatten).2.isEmpty then []
     else [(extractFrames buffer.flatten).2])
  else ([], buffer)

/-- The frames actually sent on the channel: candidate frames whose `hasAudio`
flag is set; silent candidates are skipped by the `continue` at
src/unnamed/part_000 lines 528-531. -/
def transmittedFrames (buffer : List (List ℚ)) : List (List ℚ) :=
  (processAudioFrames buffer).1.filter hasAudio

/-! ## Connection lifecycle events (src/unnamed/part_000, AudioCapture) -/

/-- `ConnectionState` (src/frontend/src/types.ts line 1). -/
inductive ConnState where
  | disconnected
  | connecting
  | connected
  | error
deriving DecidableEq, Repr

/-- WebSocket readyState, with `opened` standing for the W3C `OPEN` state. -/
inductive WsReadyState where
  | connecting
  | opened
  | closing
  | closed
deriving DecidableEq, Repr

/-- Observable actions performed by the AudioCapture component's handlers, in
program order: state callbacks, React state setters, ref writes, channel
operations and promise settlement. -/
inductive ClientEv where
  | connChange (s : ConnState)
  | setWsConnected (b : Bool)
  | setWsRef
  | sessionStart (id : String)
  | sendInit (id : String)
  | resolve
  | reject
  | setError (msg : String)
  | closeChannel (code : Option ℕ)
  | stopMediaTracks
  | disconnectProcessor
  | clearIntervals
  | cancelAnimFrame
  | closeAudioContext
  | clearFrameBuffer
  | stopRecorder
  | clearRecorded
  | setRecording (b : Bool)
  | setCapturing (b : Bool)
deriving DecidableEq, Repr

/-- Actions of `ws.onopen` (src/unnamed/part_000 lines 61-92) in program
order: report `connected` and mark the socket connected, store the socket ref,
then generate/report the session id and attempt to send the `session_init`
message; `sendOk` tells whether `ws.send` succeeded (success resolves the
promise, a throw rejects it). -/
def onopenEvents (sessionId : String) (sendOk : Bool) : List ClientEv :=
  [ClientEv.connChange ConnState.connected, ClientEv.setWsConnected true,
   ClientEv.setWsRef, ClientEv.sessionStart sessionId] ++
  (if sendOk then [ClientEv.sendInit sessionId, ClientEv.resolve]
   else [ClientEv.reject])

/-- Actions of `ws.onerror` (src/unnamed/part_000 lines 103-109). -/
def onerrorEvents : List ClientEv :=
  [ClientEv.connChange ConnState.error, ClientEv.setWsConnected false,
   ClientEv.setError "WebSocket connection failed", ClientEv.reject]

/-- Actions of `ws.onclose` (src/unnamed/part_000 lines 111-120): the handler
acts only when this socket is still the one held in `websocketRef`. -/
def oncloseEvents (isCurrent : Bool) : List ClientEv :=
  if isCurrent then
    [ClientEv.connChange ConnState.disconnected, ClientEv.setWsConnected false,
     ClientEv.setCapturing false]
  else []

/-- Actions of the 10-second connection timeout callback
(src/unnamed/part_000 lines 122-128): if the socket has not reached OPEN, call
`ws.close()` (no code) and reject the pending promise. -/
def connectionTimeoutEvents (rs : WsReadyState) : List ClientEv :=
  if rs ≠ WsReadyState.opened then [ClientEv.closeChannel none, ClientEv.reject]
  else []

/-- Composite trace of a connection attempt whose handshake has not completed
when the 10 s timeout fires (readyState still CONNECTING): the timeout handler
closes the pending socket and rejects; per the WebSocket API, aborting a
still-connecting socket fails the connection, firing the `error` event
(handled by `ws.onerror`, src/unnamed/part_000 lines 103-109) and then the
`close` event (handled by `ws.onclose`, lines 111-120, a no-op here because
`websocketRef` is assigned only inside `onopen`). -/
def timeoutScenarioEvents : List ClientEv :=
  connectionTimeoutEvents WsReadyState.connecting ++ onerrorEvents ++ oncloseEvents false

/-- Actions of `stopAudioCapture` (src/unnamed/part_000 lines 550-633) in
program order: stop media tracks, disconnect the script processor, clear the
level/test intervals, cancel the animation frame, close the audio context,
clear the frame buffer, stop the media recorder, revoke/clear the recorded
audio, reset the recording and capturing flags.  The function touches neither
`websocketRef` nor the connection state. -/
def stopAudioCaptureEvents : List ClientEv :=
  [ClientEv.stopMediaTracks, ClientEv.disconnectProcessor, ClientEv.clearIntervals,
   ClientEv.cancelAnimFrame, ClientEv.closeAudioContext, ClientEv.clearFrameBuffer,
   ClientEv.stopRecorder, ClientEv.clearRecorded, ClientEv.setRecording false,
   ClientEv.setCapturing false]

/-- `generateSessionId` (src/unnamed/part_000 lines 45-47):
`session_${Date.now()}_${Math.random().toString(36).substr(2, 9)}`, with the
millisecond timestamp and the random base-36 string as explicit inputs. -/
def generateSessionId (now : ℕ) (rand : String) : String :=
  "session_" ++ toString now ++ "_" ++ rand

/-! ## Transcript data (src/frontend/src/types.ts lines 8-18) -/

/-- `TranscriptEntry` of src/frontend/src/types.ts; the `type` field holds the
source's string discriminator values. -/
structure TranscriptEntry where
  id : String
  type : String
  original : String
  translated : Option String
  detectedLanguage : Option String
  confidence : Option ℚ
  timestamp : String
  hasTranslation : Option Bool
deriving DecidableEq, Repr

/-- JavaScript `a || b` for an optional string `a`: `undefined` and the empty
string are falsy. -/
def jsOrStr (o : Option String) (d : String) : String :=
  match o with
  | none => d
  | some s => if s = "" then d else s

/-- JavaScript `a || b` for an optional (finite) number `a`: `undefined` and 0
are falsy. -/
def jsOrNum (o : Option ℚ) (d : ℚ) : ℚ :=
  match o with
  | none => d
  | some c => if c = 0 then d else c

/-- The fields of an inbound `final_transcript` message that
`handleAzureWebSocketMessage` reads (src/unnamed/part_000 lines 172-181). -/
structure FinalMsg where
  original : String
  translated : Option String
  detectedLanguage : Option String
  confidence : Option ℚ
  timestamp : String
deriving DecidableEq, Repr

/-- The `final_transcript` branch of `handleAzureWebSocketMessage`
(src/unnamed/part_000 lines 172-181): builds the `TranscriptEntry` handed to
`onTranscriptUpdate`, with `||`-defaults for the translated text, detected
language and confidence.  `now`/`rand` are the inputs of the generated id. -/
def handleFinalTranscript (now : ℕ) (rand : String) (data : FinalMsg) : TranscriptEntry :=
  { id := "final_" ++ toString now ++ "_" ++ rand
    type := "final"
    original := data.original
    translated := some (jsOrStr data.translated data.original)
    detectedLanguage := some (jsOrStr data.detectedLanguage "unknown")
    confidence := some (jsOrNum data.confidence (9/10))
    timestamp := data.timestamp
    hasTranslation := none }

/-! ## App-level session state (src/unnamed/part_001 lines 40-61, App) -/

/-- `LanguagePair` (src/frontend/src/types.ts lines 3-6). -/
structure LanguagePair where
  source : String
  target : String
deriving DecidableEq, Repr

/-- The App component's state relevant to sessions and transcripts
(src/unnamed/part_001 lines 41-44). -/
structure AppState where
  connectionState : ConnState
  transcripts : List TranscriptEntry
  languagePair : LanguagePair
  sessionId : String
deriving DecidableEq, Repr

/-- `handleSessionStart` (src/unnamed/part_001 lines 58-61): store the new
session id and reset the transcript list to empty. -/
def handleSessionStart (id : String) (st : AppState) : AppState :=
  { st with sessionId := id, transcripts := [] }

/-- `handleTranscriptUpdate` (src/unnamed/part_001 lines 46-48): append. -/
def handleTranscriptUpdate (e : TranscriptEntry) (st : AppState) : AppState :=
  { st with transcripts := st.transcripts ++ [e] }

/-! ## Transcript Assembler projection (src/frontend/src/components/LanguageSelector.tsx
concatenated sources: TranscriptDisplay lines 170-205, getCurrentTranslatedPartial) -/

/-- JavaScript truthiness of an optional string field. -/
def strTruthy (o : Option String) : Bool :=
  match o with
  | none => false
  | some s => !(s == "")

/-- `e.translated && e.translated !== e.original`: the entry carries a
non-empty translation distinct from its original text. -/
def distinctTranslation (e : TranscriptEntry) : Bool :=
  strTruthy e.translated && !(e.translated.getD "" == e.original)

/-- `transcripts.filter(t => t.type === ty)[...length - 1]`: the latest entry
of the given discriminator. -/
def latestOfType (ty : String) (ts : List TranscriptEntry) : Option TranscriptEntry :=
  (ts.filter fun t => t.type == ty).getLast?

/-- The 50-word display limit applied to a translated text
(`words.slice(-50).join(' ') + '...'`, LanguageSelector.tsx lines 179-183). -/
def limitWords (text : String) : String :=
  if 50 < (text.splitOn " ").length then
    String.intercalate " " ((text.splitOn " ").drop ((text.splitOn " ").length - 50)) ++ "..."
  else text

/-- The final-transcripts fallback of `getCurrentTranslatedPartial`
(LanguageSelector.tsx lines 187-199): the latest final entry's translation if
it is a distinct non-empty translation, otherwise the empty string. -/
def fromFinals (ts : List TranscriptEntry) : String :=
  match latestOfType "final" ts with
  | some lf => if distinctTranslation lf then limitWords (lf.translated.getD "") else ""
  | none => ""

/-- `getCurrentTranslatedPartial` (LanguageSelector.tsx lines 170-205), the
consumer-facing translated-text projection: empty when there is no current
partial text; otherwise the latest partial entry's translation when it is
distinct and non-empty, else the latest final entry's, else the empty
string. -/
def getCurrentTranslated (current : String) (ts : List TranscriptEntry) : String :=
  if current == "" then ""
  else
    match latestOfType "partial" ts with
    | some lp =>
        if distinctTranslation lp then limitWords (lp.translated.getD "")
        else fromFinals ts
    | none => fromFinals ts

/-! ## Theorems -/

/-- The clamped sample lies in [-1, 1]. -/
theorem clampSample_mem (s : ℚ) : -1 ≤ clampSample s ∧ clampSample s ≤ 1 :=
  ⟨le_max_left _ _, max_le (by norm_num) (min_le_left _ _)⟩

/-- The modulo-2^16 reinterpretation is the identity on values already in
int16 range. -/
theorem toInt16Wrap_eq_self {n : ℤ} (h1 : -32768 ≤ n) (h2 : n ≤ 32767) :
    toInt16Wrap n = n := by
  unfold toInt16Wrap; omega

/-- Truncation toward zero of a rational in [-32768, 32767] stays in int16
range. -/
theorem ratTrunc_range {q : ℚ} (h1 : (-32768 : ℚ) ≤ q) (h2 : q ≤ 32767) :
    -32768 ≤ ratTrunc q ∧ ratTrunc q ≤ 32767 := by
  unfold ratTrunc
  split
  · constructor
    · have h : ((-32768 : ℤ) : ℚ) ≤ q := by exact_mod_cast h1
      have := Int.ceil_mono h
      rwa [Int.ceil_intCast] at this
    · have h : q ≤ ((0 : ℤ) : ℚ) := by push_cast; linarith
      have := Int.ceil_mono h
      rw [Int.ceil_intCast] at this
      omega
  · constructor
    · have h : ((0 : ℤ) : ℚ) ≤ q := by
        push_cast; linarith [not_lt.mp (by assumption : ¬ q < 0)]
      have := Int.floor_mono h
      rw [Int.floor_intCast] at this
      omega
    · have h : q ≤ ((32767 : ℤ) : ℚ) := by exact_mod_cast h2
      have := Int.floor_mono h
      rwa [Int.floor_intCast] at this

/-- The converter equals its wrap-free description: after the clamp, the
scaled and truncated value is always in int16 range, so the ToInt16 wrap is
the identity. -/
theorem sampleToInt16_eq_spec (s : ℚ) : sampleToInt16 s = sampleToInt16SpecTrunc s := by
  obtain ⟨hlo, hhi⟩ := clampSample_mem s
  unfold sampleToInt16 sampleToInt16SpecTrunc
  split
  · have hr := ratTrunc_range (q := clampSample s * 32768)
      (by nlinarith) (by nlinarith)
    exact toInt16Wrap_eq_self hr.1 hr.2
  · rename_i hpos
    have h0 : 0 ≤ clampSample s := not_lt.mp hpos
    have hr := ratTrunc_range (q := clampSample s * 32767)
      (by nlinarith) (by nlinarith)
    exact toInt16Wrap_eq_self hr.1 hr.2

/-- C1 (amended): the Sample Converter clamps each sample to [-1, 1], scales
negatives by 32768 and non-negatives by 32767, and truncates toward zero (the
ECMAScript Int16Array conversion) — not toward the minimum representable
value; the three fixed points 1.0 → 32767, -1.0 → -32768, 0.0 → 0 hold, and
the converter is a pure function of the sample, hence deterministic. -/
theorem c1_sample_converter_amended :
    (∀ s : ℚ, sampleToInt16 s = sampleToInt16SpecTrunc s) ∧
    sampleToInt16 1 = 32767 ∧ sampleToInt16 (-1) = -32768 ∧ sampleToInt16 0 = 0 := by
  refine ⟨sampleToInt16_eq_spec, ?_, ?_, ?_⟩
  · rw [sampleToInt16_eq_spec]
    have h1 : clampSample 1 = 1 := by norm_num [clampSample]
    unfold sampleToInt16SpecTrunc ratTrunc
    rw [h1, if_neg (by norm_num), if_neg (by norm_num)]
    norm_num
  · rw [sampleToInt16_eq_spec]
    have h1 : clampSample (-1) = -1 := by norm_num [clampSample]
    unfold sampleToInt16SpecTrunc ratTrunc
    rw [h1, if_pos (by norm_num), if_pos (by norm_num)]
    rw [show ((-1 : ℚ) * 32768) = ((-32768 : ℤ) : ℚ) by norm_num, Int.ceil_intCast]
  · rw [sampleToInt16_eq_spec]
    have h1 : clampSample 0 = 0 := by norm_num [clampSample]
    unfold sampleToInt16SpecTrunc ratTrunc
    rw [h1, if_neg (by norm_num), if_neg (by norm_num)]
    norm_num

/-- C1 counterexample: at the sample -32769/65536 (a binary32 value), the
scaled value is -16384.5; the converter truncates toward zero and stores
-16384, while the claimed truncation toward the minimum representable value
(-32768, i.e. floor) would give -16385. -/
theorem c1_truncation_counterexample :
    sampleToInt16 (-(32769/65536)) = -16384 ∧
    sampleToInt16SpecFloor (-(32769/65536)) = -16385 ∧
    sampleToInt16 (-(32769/65536)) ≠ sampleToInt16SpecFloor (-(32769/65536)) := by
  have h1 : clampSample (-(32769/65536)) = -(32769/65536) := by
    unfold clampSample
    rw [min_eq_right (by norm_num), max_eq_right (by norm_num)]
  have hA : sampleToInt16 (-(32769/65536)) = -16384 := by
    rw [sampleToInt16_eq_spec]
    unfold sampleToInt16SpecTrunc ratTrunc
    rw [h1, if_pos (by norm_num)]
    rw [show ((-(32769 / 65536) : ℚ) * 32768) = -(32769/2) by norm_num]
    rw [if_pos (by norm_num)]
    rw [Int.ceil_eq_iff]
    norm_num
  have hB : sampleToInt16SpecFloor (-(32769/65536)) = -16385 := by
    unfold sampleToInt16SpecFloor
    rw [h1, if_pos (by norm_num)]
    rw [show ((-(32769 / 65536) : ℚ) * 32768) = -(32769/2) by norm_num]
    norm_num
  exact ⟨hA, hB, by rw [hA, hB]; decide⟩

/-- Unfolding of `extractFrames` when a complete frame is available. -/
theorem extractFrames_pos {acc : List ℚ} (h : FRAME_SIZE ≤ acc.length) :
    extractFrames acc = (acc.take FRAME_SIZE :: (extractFrames (acc.drop FRAME_SIZE)).1,
      (extractFrames (acc.drop FRAME_SIZE)).2) := by
  rw [extractFrames]; simp [h]

/-- Unfolding of `extractFrames` when fewer than `FRAME_SIZE` samples remain. -/
theorem extractFrames_neg {acc : List ℚ} (h : acc.length < FRAME_SIZE) :
    extractFrames acc = ([], acc) := by
  rw [extractFrames]; simp [Nat.not_le.mpr h]

/-- The frame-splicing loop loses nothing: the extracted frames concatenated
with the residual give back the input, every frame has exactly `FRAME_SIZE`
samples, and the residual is shorter than a frame. -/
theorem extractFrames_spec : ∀ (n : ℕ) (acc : List ℚ), acc.length ≤ n →
    (extractFrames acc).1.flatten ++ (extractFrames acc).2 = acc ∧
    (∀ f ∈ (extractFrames acc).1, f.length = FRAME_SIZE) ∧
    (extractFrames acc).2.length < FRAME_SIZE := by
  intro n
  induction n with
  | zero =>
    intro acc hlen
    have : acc.length < FRAME_SIZE := by norm_num [FRAME_SIZE]; omega
    rw [extractFrames_neg this]
    simpa using this
  | succ n ih =>
    intro acc hlen
    by_cases h : FRAME_SIZE ≤ acc.length
    · have hdrop : (acc.drop FRAME_SIZE).length ≤ n := by
        simp only [List.length_drop]
        have : 0 < FRAME_SIZE := by norm_num [FRAME_SIZE]
        omega
      obtain ⟨hj, hl, hr⟩ := ih (acc.drop FRAME_SIZE) hdrop
      rw [extractFrames_pos h]
      refine ⟨?_, ?_, hr⟩
      · simp only [List.flatten_cons, List.append_assoc, hj, List.take_append_drop]
      · intro f hf
        rcases List.mem_cons.mp hf with rfl | hf
        · simp [List.length_take, Nat.min_eq_left h]
        · exact hl f hf
    · rw [extractFrames_neg (Nat.not_le.mp h)]
      simpa using Nat.not_le.mp h

/-- One processing run preserves every sample in order (candidate frames then
the new buffer reconstruct the old buffer), emits only complete frames, and
leaves a residual shorter than a frame. -/
theorem processAudioFrames_spec (buffer : List (List ℚ)) :
    (processAudioFrames buffer).1.flatten ++ (processAudioFrames buffer).2.flatten
        = buffer.flatten ∧
    (∀ f ∈ (processAudioFrames buffer).1, f.length = FRAME_SIZE) ∧
    ((processAudioFrames buffer).2.map List.length).sum < FRAME_SIZE := by
  unfold processAudioFrames
  by_cases hemp : buffer.isEmpty
  · rw [if_pos hemp]
    rcases List.isEmpty_iff.mp hemp with rfl
    simp [FRAME_SIZE]
  · rw [if_neg hemp]
    by_cases htot : FRAME_SIZE ≤ (buffer.map List.length).sum
    · rw [if_pos htot]
      obtain ⟨hj, hl, hr⟩ := extractFrames_spec buffer.flatten.length buffer.flatten le_rfl
      by_cases hres : (extractFrames buffer.flatten).2.isEmpty
      · rw [if_pos hres]
        rcases List.isEmpty_iff.mp hres with hnil
        rw [hnil] at hj
        refine ⟨?_, hl, ?_⟩
        · simpa using hj
        · simpa using Nat.lt_of_le_of_lt (Nat.zero_le _) hr
      · rw [if_neg hres]
        refine ⟨?_, hl, ?_⟩
        · simpa using hj
        · simpa using hr
    · rw [if_neg htot]
      refine ⟨by simp, by simp, ?_⟩
      show (List.map List.length buffer).sum < FRAME_SIZE
      omega

/-- `extractFrames` on one 3000-sample chunk: one 2048-sample frame and a
952-sample residual. -/
theorem extractFrames_3000 : extractFrames (List.replicate 3000 (1/2 : ℚ))
    = ([List.replicate 2048 (1/2 : ℚ)], List.replicate 952 (1/2 : ℚ)) := by
  rw [extractFrames_pos (by simp only [List.length_replicate, FRAME_SIZE]; norm_num)]
  simp only [FRAME_SIZE, List.take_replicate, List.drop_replicate]
  norm_num
  rw [extractFrames_neg (by simp only [List.length_replicate, FRAME_SIZE]; norm_num)]
  exact ⟨rfl, rfl⟩

/-- A frame of constant samples 1/2 is non-silent. -/
theorem hasAudio_half : hasAudio (List.replicate 2048 (1/2 : ℚ)) = true := by
  rw [hasAudio, List.any_eq_true]
  refine ⟨1/2, List.mem_replicate.mpr ⟨by norm_num, rfl⟩, ?_⟩
  rw [decide_eq_true_eq]
  have h1 : clampSample (1/2) = 1/2 := by
    unfold clampSample
    rw [min_eq_right (by norm_num), max_eq_right (by norm_num)]
  rw [h1]
  unfold jsAbs SILENCE_THRESHOLD
  rw [if_neg (by norm_num)]
  norm_num

/-- C2: for every buffer state, the candidate frames produced by one
processing run (transmitted non-silent ones and discarded silent ones alike,
in their original positions) concatenated with the new buffer reconstruct the
input samples with zero loss or duplication; every frame has exactly
`FRAME_SIZE` samples, emission order is input order (the concatenation
identity), and the retained residual is shorter than a frame.  In particular
one non-silent chunk of 3000 samples with frame size 2048 yields exactly one
transmitted frame and a 952-sample residual. -/
theorem c2_frame_accumulator :
    (∀ buffer : List (List ℚ),
      (processAudioFrames buffer).1.flatten ++ (processAudioFrames buffer).2.flatten
          = buffer.flatten ∧
      (∀ f ∈ (processAudioFrames buffer).1, f.length = FRAME_SIZE) ∧
      ((processAudioFrames buffer).2.map List.length).sum < FRAME_SIZE) ∧
    processAudioFrames [List.replicate 3000 (1/2 : ℚ)]
        = ([List.replicate 2048 (1/2 : ℚ)], [List.replicate 952 (1/2 : ℚ)]) ∧
    transmittedFrames [List.replicate 3000 (1/2 : ℚ)] = [List.replicate 2048 (1/2 : ℚ)] := by
  have hp : processAudioFrames [List.replicate 3000 (1/2 : ℚ)]
      = ([List.replicate 2048 (1/2 : ℚ)], [List.replicate 952 (1/2 : ℚ)]) := by
    unfold processAudioFrames
    rw [if_neg (by rw [List.isEmpty_cons]; exact Bool.false_ne_true)]
    rw [if_pos (by simp only [List.map, List.length_replicate, List.sum_cons, List.sum_nil,
      FRAME_SIZE]; norm_num)]
    have hfl : ([List.replicate 3000 (1/2 : ℚ)]).flatten = List.replicate 3000 (1/2 : ℚ) := by
      simp only [List.flatten_cons, List.flatten_nil, List.append_nil]
    rw [hfl, extractFrames_3000]
    rw [if_neg (fun h => by
      have hl := congrArg List.length (List.isEmpty_iff.mp h)
      rw [List.length_replicate] at hl
      exact absurd hl (by norm_num))]
  refine ⟨processAudioFrames_spec, hp, ?_⟩
  unfold transmittedFrames
  rw [hp]
  simp only [List.filter_cons, hasAudio_half, if_true, List.filter_nil]

/-- C3: a candidate frame is transmitted exactly when some sample of it has
clamped absolute value strictly above the silence threshold 1/100; silent
candidates are discarded. -/
theorem c3_silence_gate (buffer : List (List ℚ)) (f : List ℚ) :
    f ∈ transmittedFrames buffer ↔
      f ∈ (processAudioFrames buffer).1 ∧
        ∃ s ∈ f, SILENCE_THRESHOLD < |clampSample s| := by
  unfold transmittedFrames
  rw [List.mem_filter]
  have habs : ∀ q : ℚ, jsAbs q = |q| := by
    intro q
    unfold jsAbs
    split
    · exact (abs_of_neg (by assumption)).symm
    · exact (abs_of_nonneg (not_lt.mp (by assumption))).symm
  constructor
  · rintro ⟨hmem, hany⟩
    refine ⟨hmem, ?_⟩
    obtain ⟨s, hs, hdec⟩ := List.any_eq_true.mp hany
    exact ⟨s, hs, by rw [← habs]; exact of_decide_eq_true hdec⟩
  · rintro ⟨hmem, s, hs, hlt⟩
    refine ⟨hmem, List.any_eq_true.mpr ⟨s, hs, ?_⟩⟩
    rw [decide_eq_true_eq, habs]
    exact hlt

/-- C4: after any processing run, whatever the prior buffer contents, the
accumulator retains strictly fewer than `FRAME_SIZE` unprocessed samples. -/
theorem c4_residual_invariant (buffer : List (List ℚ)) :
    ((processAudioFrames buffer).2.map List.length).sum < FRAME_SIZE :=
  (processAudioFrames_spec buffer).2.2

/-- C5 counterexample: the very first action of the `ws.onopen` handler is the
`connected` report — the `session_init` send has not happened yet at that
point, so the controller reports `connected` before the init message is
accepted, on socket open alone. -/
theorem c5_connected_before_init_counterexample :
    ClientEv.connChange ConnState.connected ∈ (onopenEvents "s0" true).take 1 ∧
    ClientEv.sendInit "s0" ∉ (onopenEvents "s0" true).take 1 := by decide

/-- C5 (amended): the Session Controller reports `connected` immediately upon
socket open — before, not after, the `session_init` control message is handed
to the channel; on the successful path the init send does occur, strictly
after the `connected` report. -/
theorem c5_connected_on_open_amended :
    (∀ (sid : String) (ok : Bool),
      (onopenEvents sid ok).head? = some (ClientEv.connChange ConnState.connected)) ∧
    (∀ sid : String, ∃ pre post, onopenEvents sid true
        = pre ++ ClientEv.sendInit sid :: post ∧
      ClientEv.connChange ConnState.connected ∈ pre) := by
  constructor
  · intro sid ok
    rfl
  · intro sid
    refine ⟨[ClientEv.connChange ConnState.connected, ClientEv.setWsConnected true,
      ClientEv.setWsRef, ClientEv.sessionStart sid], [ClientEv.resolve], rfl, ?_⟩
    simp

/-- C6 counterexample: `stopAudioCapture` performs no channel close (with the
normal-closure code 1000 or any other) and no `ConnectionState` change at
all — conjuncts (c) and (d) of the claim fail. -/
theorem c6_stop_capture_counterexample :
    ClientEv.closeChannel (some 1000) ∉ stopAudioCaptureEvents ∧
    ClientEv.connChange ConnState.disconnected ∉ stopAudioCaptureEvents := by decide

/-- C6 (amended): stopping capture detaches the audio processor before the
frame buffer (the residual) is cleared, and does discard the residual and
reset the capturing flag; but it neither closes the Transport Channel nor
touches `ConnectionState` — the socket stays open and the state is left
as it was (teardown of the channel lives in `disconnectWebSocket` instead). -/
theorem c6_stop_capture_amended :
    (∃ pre post, stopAudioCaptureEvents = pre ++ ClientEv.clearFrameBuffer :: post ∧
      ClientEv.disconnectProcessor ∈ pre) ∧
    (∀ c : Option ℕ, ClientEv.closeChannel c ∉ stopAudioCaptureEvents) ∧
    (∀ s : ConnState, ClientEv.connChange s ∉ stopAudioCaptureEvents) ∧
    ClientEv.setCapturing false ∈ stopAudioCaptureEvents := by
  refine ⟨⟨[ClientEv.stopMediaTracks, ClientEv.disconnectProcessor, ClientEv.clearIntervals,
    ClientEv.cancelAnimFrame, ClientEv.closeAudioContext],
    [ClientEv.stopRecorder, ClientEv.clearRecorded, ClientEv.setRecording false,
     ClientEv.setCapturing false], rfl, by decide⟩, ?_, ?_, by decide⟩
  · intro c
    simp [stopAudioCaptureEvents]
  · intro s
    simp [stopAudioCaptureEvents]

/-- C7: when the 10 s timeout fires on a connection attempt whose handshake
has not completed, the pending channel is closed (aborted) and the
`ConnectionState` transitions to `error` (through the channel's error
callback, which the abort triggers). -/
theorem c7_timeout_aborts_and_errors :
    ClientEv.closeChannel none ∈ timeoutScenarioEvents ∧
    ClientEv.connChange ConnState.error ∈ timeoutScenarioEvents := by decide

/-- Splitting a list at a separator that occurs in neither tail is unique:
equal lists of the shape `a ++ sep :: r` with `sep ∉ r` have equal parts. -/
theorem sep_split_unique {α : Type} (sep : α) :
    ∀ (a1 a2 r1 r2 : List α), sep ∉ r1 → sep ∉ r2 →
      a1 ++ sep :: r1 = a2 ++ sep :: r2 → a1 = a2 ∧ r1 = r2 := by
  intro a1
  induction a1 with
  | nil =>
    intro a2 r1 r2 h1 h2 heq
    cases a2 with
    | nil =>
      simp only [List.nil_append] at heq
      exact ⟨rfl, (List.cons.inj heq).2⟩
    | cons x a2' =>
      simp only [List.nil_append, List.cons_append] at heq
      obtain ⟨rfl, htail⟩ := List.cons.inj heq
      exact absurd (htail ▸ List.mem_append_right a2' (List.mem_cons_self _ _)) h1
  | cons x a1' ih =>
    intro a2 r1 r2 h1 h2 heq
    cases a2 with
    | nil =>
      simp only [List.nil_append, List.cons_append] at heq
      obtain ⟨rfl, htail⟩ := List.cons.inj heq
      exact absurd (htail.symm ▸ List.mem_append_right a1' (List.mem_cons_self _ _)) h2
    | cons y a2' =>
      simp only [List.cons_append] at heq
      obtain ⟨rfl, htail⟩ := List.cons.inj heq
      obtain ⟨ha, hr⟩ := ih a2' r1 r2 h1 h2 htail
      exact ⟨by rw [ha], hr⟩

/-- Strings with equal character data are equal. -/
theorem string_data_inj {a b : String} (h : a.data = b.data) : a = b := by
  cases a; cases b; exact congrArg String.mk h

/-- Session identifiers generated from different inputs differ: if the
rendered millisecond timestamps differ or the random components differ (and
the random components, drawn from base-36 digits, contain no underscore), the
two ids are distinct strings. -/
theorem generateSessionId_inj (n1 : ℕ) (r1 : String) (n2 : ℕ) (r2 : String)
    (h1 : '_' ∉ r1.data) (h2 : '_' ∉ r2.data)
    (hne : toString n1 ≠ toString n2 ∨ r1 ≠ r2) :
    generateSessionId n1 r1 ≠ generateSessionId n2 r2 := by
  intro heq
  have hdata := congrArg String.data heq
  have hform : ∀ (n : ℕ) (r : String), (generateSessionId n r).data
      = ("session_".data ++ (toString n).data) ++ '_' :: r.data := by
    intro n r
    show ((("session_" ++ toString n) ++ "_") ++ r).data = _
    have hap : ∀ (a b : String), (a ++ b).data = a.data ++ b.data := fun a b => rfl
    rw [hap, hap, hap]
    simp [List.append_assoc]
  rw [hform, hform] at hdata
  obtain ⟨hpre, hrand⟩ := sep_split_unique '_' _ _ _ _ h1 h2 hdata
  have hnum : (toString n1).data = (toString n2).data :=
    (List.append_right_inj _).mp hpre
  rcases hne with hn | hr
  · exact hn (string_data_inj hnum)
  · exact hr (string_data_inj hrand)

/-- C8 counterexample: a reconnect (the `onSessionStart` callback firing with
a fresh id) resets the App's transcript list to empty — the previously
accumulated log of one final entry is wiped, not left intact for the
consumer. -/
theorem c8_transcript_cleared_counterexample :
    (handleSessionStart (generateSessionId 2 "bcdefghij")
      { connectionState := ConnState.connected,
        transcripts := [{ id := "p1", type := "final", original := "hello",
                          translated := some "hola", detectedLanguage := some "en",
                          confidence := some (8/10), timestamp := "t1",
                          hasTranslation := none }],
        languagePair := { source := "auto", target := "en" },
        sessionId := generateSessionId 1 "abcdefghi" }).transcripts = [] ∧
    ([] : List TranscriptEntry) ≠ [{ id := "p1", type := "final", original := "hello",
                                     translated := some "hola",
                                     detectedLanguage := some "en",
                                     confidence := some (8/10), timestamp := "t1",
                                     hasTranslation := none }] := by
  exact ⟨rfl, by simp⟩

/-- C8 (amended): an abrupt remote close while this socket is still the
current one transitions the state to `disconnected` and halts capture; a
subsequent reconnect generates a session identifier distinct from the
previous one whenever the millisecond timestamp renders differently or the
random component differs; but `handleSessionStart` resets the transcript log
to empty on every reconnect — the prior log is cleared, not preserved. -/
theorem c8_remote_close_amended :
    (ClientEv.connChange ConnState.disconnected ∈ oncloseEvents true ∧
     ClientEv.setCapturing false ∈ oncloseEvents true) ∧
    (∀ (n1 : ℕ) (r1 : String) (n2 : ℕ) (r2 : String),
      '_' ∉ r1.data → '_' ∉ r2.data → (toString n1 ≠ toString n2 ∨ r1 ≠ r2) →
      generateSessionId n1 r1 ≠ generateSessionId n2 r2) ∧
    (∀ (id : String) (st : AppState),
      (handleSessionStart id st).transcripts = [] ∧
      (handleSessionStart id st).sessionId = id) := by
  refine ⟨⟨by decide, by decide⟩, generateSessionId_inj, ?_⟩
  intro id st
  exact ⟨rfl, rfl⟩

/-- Two concrete reconnect inputs (distinct timestamps) yield distinct session
identifiers, by `c8_remote_close_amended` at a concrete input. -/
theorem c8_remote_close_amended_witness :
    generateSessionId 100 "abc" ≠ generateSessionId 200 "xyz" :=
  c8_remote_close_amended.2.1 100 "abc" 200 "xyz" (by decide) (by decide)
    (Or.inl (by decide))

/-- The word-limited display text of a non-empty string is non-empty. -/
theorem limitWords_ne_empty {t : String} (h : t ≠ "") : limitWords t ≠ "" := by
  unfold limitWords
  split
  · intro hc
    have hl := congrArg String.length hc
    rw [String.length_append] at hl
    simp at hl
    exact absurd hl.2 (by decide)
  · exact h

/-- An entry with a distinct translation carries a non-empty translated
text. -/
theorem distinct_getD_ne_empty {e : TranscriptEntry} (h : distinctTranslation e = true) :
    e.translated.getD "" ≠ "" := by
  unfold distinctTranslation strTruthy at h
  cases htr : e.translated with
  | none => rw [htr] at h; simp at h
  | some s =>
    rw [htr] at h
    simp only [Bool.and_eq_true, Bool.not_eq_true', beq_eq_false_iff_ne, ne_eq] at h
    simpa using h.1

/-- The final-transcripts fallback yields the empty string exactly when the
latest final entry (if any) carries no distinct translation. -/
theorem fromFinals_empty_iff (ts : List TranscriptEntry) :
    fromFinals ts = "" ↔
      (∀ e, latestOfType "final" ts = some e → distinctTranslation e = false) := by
  unfold fromFinals
  split
  · rename_i lf heq
    split
    · rename_i hd
      constructor
      · intro hc
        exact absurd hc (limitWords_ne_empty (distinct_getD_ne_empty hd))
      · intro hall
        rw [hall lf heq] at hd
        exact absurd hd (by simp)
    · rename_i hd
      constructor
      · intro _ e he
        rw [heq] at he
        rw [← Option.some.inj he]
        exact Bool.eq_false_iff.mpr hd
      · intro _
        rfl
  · rename_i heq
    constructor
    · intro _ e he
      rw [heq] at he
      exact absurd he (by simp)
    · intro _
      rfl

/-- C9 counterexample: with one partial entry whose translation equals its
original ("hello"), the projection returns the empty string, not the
original text — and it returns the empty string even though a transcript
entry exists. -/
theorem c9_fallback_counterexample :
    getCurrentTranslated "hello"
      [{ id := "e1", type := "partial", original := "hello", translated := some "hello",
         detectedLanguage := none, confidence := none, timestamp := "t0",
         hasTranslation := some false }] = "" ∧
    ("hello" : String) ≠ "" := by
  constructor
  · rfl
  · decide

/-- C9 (amended): the consumer-facing translated-text projection never falls
back to the original text: it returns the empty string exactly when there is
no current partial text or when neither the latest partial entry nor the
latest final entry carries a distinct non-empty translation; when the latest
partial entry does carry one (and a current partial text exists) it returns
that translation, word-limited. -/
theorem c9_translated_projection_amended (current : String) (ts : List TranscriptEntry) :
    (getCurrentTranslated current ts = "" ↔
      (current = "" ∨
        ((∀ e, latestOfType "partial" ts = some e → distinctTranslation e = false) ∧
         (∀ e, latestOfType "final" ts = some e → distinctTranslation e = false)))) ∧
    (∀ e, current ≠ "" → latestOfType "partial" ts = some e → distinctTranslation e = true →
      getCurrentTranslated current ts = limitWords (e.translated.getD "")) := by
  constructor
  · unfold getCurrentTranslated
    by_cases hc : current = ""
    · subst hc
      simp
    · rw [if_neg (by simpa using hc)]
      split
      · rename_i lp heq
        split
        · rename_i hd
          constructor
          · intro hcon
            exact absurd hcon (limitWords_ne_empty (distinct_getD_ne_empty hd))
          · rintro (h | ⟨hp, _⟩)
            · exact absurd h hc
            · rw [hp lp heq] at hd
              exact absurd hd (by simp)
        · rename_i hd
          rw [fromFinals_empty_iff]
          constructor
          · intro hfin
            refine Or.inr ⟨?_, hfin⟩
            intro e he
            rw [heq] at he
            rw [← Option.some.inj he]
            exact Bool.eq_false_iff.mpr hd
          · rintro (h | ⟨_, hfin⟩)
            · exact absurd h hc
            · exact hfin
      · rename_i heq
        rw [fromFinals_empty_iff]
        constructor
        · intro hfin
          refine Or.inr ⟨?_, hfin⟩
          intro e he
          rw [heq] at he
          exact absurd he (by simp)
        · rintro (h | ⟨_, hfin⟩)
          · exact absurd h hc
          · exact hfin
  · intro e hcur hlp hd
    unfold getCurrentTranslated
    rw [if_neg (by simpa using hcur)]
    split
    · rename_i lp heq
      rw [hlp] at heq
      rw [Option.some.inj heq] at hd ⊢
      rw [if_pos hd]
    · rename_i heq
      rw [hlp] at heq
      exact absurd heq (by simp)

/-- A concrete instance of the amended projection behaviour: one partial entry
whose translation "hello" differs from its original "hola" makes the
projection return that translation (word-limited). -/
theorem c9_translated_projection_amended_witness :
    getCurrentTranslated "hola"
      [{ id := "w1", type := "partial", original := "hola", translated := some "hello",
         detectedLanguage := none, confidence := none, timestamp := "t0",
         hasTranslation := some true }] = limitWords "hello" := by
  have := (c9_translated_projection_amended "hola"
    [{ id := "w1", type := "partial", original := "hola", translated := some "hello",
       detectedLanguage := none, confidence := none, timestamp := "t0",
       hasTranslation := some true }]).2
    { id := "w1", type := "partial", original := "hola", translated := some "hello",
      detectedLanguage := none, confidence := none, timestamp := "t0",
      hasTranslation := some true }
    (by decide) rfl rfl
  exact this

/-- C10: every final transcript event delivered to the consumer has both
`detectedLanguage` and `confidence` populated; an omitted detected language
becomes "unknown", an omitted or exactly-zero confidence becomes 0.9, and a
confidence of 0 is never surfaced. -/
theorem c10_final_transcript_defaults (now : ℕ) (rand : String) (data : FinalMsg) :
    (handleFinalTranscript now rand data).detectedLanguage.isSome = true ∧
    (handleFinalTranscript now rand data).confidence.isSome = true ∧
    (data.detectedLanguage = none →
      (handleFinalTranscript now rand data).detectedLanguage = some "unknown") ∧
    ((data.confidence = none ∨ data.confidence = some 0) →
      (handleFinalTranscript now rand data).confidence = some (9/10)) ∧
    (handleFinalTranscript now rand data).confidence ≠ some 0 := by
  refine ⟨rfl, rfl, ?_, ?_, ?_⟩
  · intro h
    simp [handleFinalTranscript, jsOrStr, h]
  · rintro (h | h) <;> simp [handleFinalTranscript, jsOrNum, h]
  · intro hc
    have hval : jsOrNum data.confidence (9/10) = 0 := Option.some.inj hc
    cases hcf : data.confidence with
    | none => rw [hcf] at hval; norm_num [jsOrNum] at hval
    | some c =>
      rw [hcf] at hval
      simp only [jsOrNum] at hval
      by_cases h0 : c = 0
      · rw [if_pos h0] at hval; norm_num at hval
      · rw [if_neg h0] at hval; exact h0 hval

/-- A concrete final message omitting the detected language and reporting
confidence 0 yields an event carrying "unknown" and 0.9, by
`c10_final_transcript_defaults` at a concrete input. -/
theorem c10_final_transcript_defaults_witness :
    (handleFinalTranscript 5 "zzz" { original := "hi", translated := none,
                                     detectedLanguage := none, confidence := some 0,
                                     timestamp := "t" }).detectedLanguage = some "unknown" ∧
    (handleFinalTranscript 5 "zzz" { original := "hi", translated := none,
                                     detectedLanguage := none, confidence := some 0,
                                     timestamp := "t" }).confidence = some (9/10) := by
  have h := c10_final_transcript_defaults 5 "zzz" { original := "hi", translated := none,
                                                    detectedLanguage := none,
                                                    confidence := some 0, timestamp := "t" }
  exact ⟨h.2.2.1 rfl, h.2.2.2.1 (Or.inr rfl)⟩
